import Mathlib

/-! A shallow embedding of `server.go` of cloudrun-sigterm-selfcall.

The program is a Cloud Run service which, on SIGINT/SIGTERM, looks up its own
public URL and calls itself before exiting.  Every function of `server.go`
that takes part in the shutdown sequence is embedded here as a Lean function
over an explicit environment (`World`) and an explicit list of observable
effects (`Event`).

Conventions of the embedding

* Go `string` is Lean `String`; Go `error` is `Option Error` (`none` is `nil`),
  an error value being represented by its message.
* A library call that can fail in Go with `(value, err)` is an `Except`.
* A function of the program returns a `Run`: the effects so far, and how the
  call ended (returned, `os.Exit`, run-time panic, or still inside a loop when
  the fuel ran out).
-/

namespace SelfCall

/-! ## Basic types -/

/-- Go `error` values, represented by their message. -/
abbrev Error := String

/-- The signals registered by `signal.Notify` in `main`. -/
inductive Signal where
  | SIGINT
  | SIGTERM

/-- The text printed for a signal by `%s` (its `String()` method). -/
def Signal.String : Signal → String
  | .SIGINT => "interrupt"
  | .SIGTERM => "terminated"

/-- An outgoing `*http.Request`, as far as the program sets it. -/
structure Request where
  Method : String
  URL : String
  Body : Option String
  Header : List (String × String)
deriving DecidableEq, Repr

/-- Observable effects of the shutdown sequence, in program order. -/
inductive Event where
  /-- text written to standard output by `fmt.Printf` / `fmt.Println` -/
  | stdout (text : String)
  /-- a call `metadata.Get(suffix)` -/
  | metadataGet (suffix : String)
  /-- a call `client.Get(url)` on the client of `google.DefaultClient` -/
  | clientGet (url : String)
  /-- a call `http.DefaultClient.Do(req)` -/
  | httpDo (req : Request)
  /-- a call `os.Exit(code)` -/
  | exit (code : Int)
deriving DecidableEq, Repr

/-- How a call of a function of the program ends. -/
inductive Status (α : Type) where
  /-- the function returned to its caller with these results -/
  | returned (results : α)
  /-- the process was terminated by `os.Exit` -/
  | exited (code : Int)
  /-- a run-time panic (it is never recovered: the process crashes) -/
  | panicked (msg : String)
  /-- the fuel ran out while the function was still inside its loop -/
  | running
deriving DecidableEq, Repr

/-- The effects of a call and how it ended. -/
structure Run (α : Type) where
  trace : List Event
  status : Status α
deriving DecidableEq, Repr

/-! ## JSON documents and the response of the control plane -/

/-- A parsed JSON value.  Objects keep their members in document order,
duplicates included, which is what `encoding/json` sees. -/
inductive JValue where
  | null
  | bool (b : Bool)
  | number (literal : String)
  | string (s : String)
  | array (items : List JValue)
  | object (members : List (String × JValue))

/-- The bytes read from a response body: either not a syntactically valid JSON
text, or a JSON document. -/
inductive Body where
  | invalid (raw : String)
  | json (doc : JValue)

/-- What `client.Get` hands back when it succeeds: the status code and the
result of `ioutil.ReadAll(resp.Body)`. -/
structure APIResponse where
  StatusCode : Nat
  ReadAll : Except Error Body

/-- The `*http.Response` of the self call, as far as the program reads it. -/
structure Response where
  StatusCode : Nat
deriving DecidableEq, Repr

/-! ## The environment -/

/-- Everything outside the process that the shutdown sequence talks to. -/
structure World where
  /-- Go `metadata.Get(suffix)` of `cloud.google.com/go/compute/metadata` -/
  metadataGet : String → Except Error String
  /-- Go `os.Getenv(name)`: the empty string when the variable is not set -/
  Getenv : String → String
  /-- Go `google.DefaultClient(ctx)`: `none` when a client is returned, the error
  otherwise (the returned client is then `nil`) -/
  DefaultClient : Option Error
  /-- the error of `url.Parse`, which is the only way `http.NewRequest("GET", url, nil)`
  fails -/
  urlParse : String → Option Error
  /-- Go `client.Get(url)` on a non-nil default client -/
  clientGet : String → Except Error APIResponse
  /-- Go `http.DefaultClient.Do(req)`: the answer to the request number `i`
  (counted from 0) that the process sends -/
  Do : Nat → Request → Except Error Response

/-! ## Library functions used by the program -/

/-- Splits `cs` at every occurrence of `sep`; `cur` holds, reversed, the
characters of the segment being read. -/
def splitChars (sep : Char) : List Char → List Char → List (List Char)
  | [], cur => [cur.reverse]
  | c :: cs, cur =>
    if c = sep then cur.reverse :: splitChars sep cs []
    else splitChars sep cs (c :: cur)

/-- Go `strings.Split(s, sep)` for a separator of one character, the only use
in the program (`strings.Split(resp, "/")`): all the substrings of `s` between
the separators, so one more segment than there are separators.  Go splits
bytes; the byte of `/` never occurs inside a longer UTF-8 sequence, so on text
the segments are the same. -/
def stringsSplit (s : String) (sep : Char) : List String :=
  (splitChars sep s.toList []).map String.mk

/-- Go slice indexing `r[i]`: a run-time panic when `i` is out of range. -/
def index (r : List String) (i : Nat) : Except String String :=
  match r[i]? with
  | some x => .ok x
  | none => .error s!"runtime error: index out of range [{i}] with length {r.length}"

/-- The number of `http.DefaultClient.Do` calls made so far. -/
def countDo (tr : List Event) : Nat :=
  (tr.filter fun e => match e with
    | .httpDo _ => true
    | _ => false).length

/-! ## `getProjectAndRegion` (server.go, lines 144-155) -/

/-- Go `getProjectAndRegion() (projectNumber string, region string, err error)`.
`tr` is the trace of the process before the call. -/
def getProjectAndRegion (w : World) (tr : List Event) :
    Run (String × String × Option Error) :=
  let tr := tr ++ [.metadataGet "/instance/region"]
  match w.metadataGet "/instance/region" with
  | .error err => ⟨tr, .returned ("", "", some err)⟩
  | .ok resp =>
    let r := stringsSplit resp '/'
    match index r 1 with
    | .error msg => ⟨tr, .panicked msg⟩
    | .ok projectNumber =>
      match index r 3 with
      | .error msg => ⟨tr, .panicked msg⟩
      | .ok region => ⟨tr, .returned (projectNumber, region, none)⟩

/-! ## `encoding/json` decoding into `CloudRunAPIUrlOnly` -/

/-- The anonymous struct type of the field `Status`. -/
structure CloudRunStatus where
  /-- Go field `URL`, tagged `json:"url"` -/
  URL : String
deriving DecidableEq, Repr

/-- The Go type `CloudRunAPIUrlOnly` (server.go, lines 138-142). -/
structure CloudRunAPIUrlOnly where
  /-- Go field `Status`, tagged `json:"status"` -/
  Status : CloudRunStatus
deriving DecidableEq, Repr

/-- Case folding of one character as far as it matters for a comparison with
an ASCII name: upper-case ASCII letters fold to lower case, and the two
non-ASCII characters that Unicode simple folding identifies with an ASCII
letter (U+017F with `s`, U+212A with `k`) fold to that letter. -/
def foldRune (c : Char) : Char :=
  if c = Char.ofNat 0x017F then 's'
  else if c = Char.ofNat 0x212A then 'k'
  else c.toLower

/-- Folding of a key of a JSON object. -/
def foldName (key : String) : List Char :=
  key.toList.map foldRune

/-- Whether the object key `key` selects the struct field whose JSON name is
`name`: `encoding/json` looks for an exact match first and accepts a
case-insensitive match otherwise. -/
def matchesField (name key : String) : Bool :=
  key == name || foldName key == foldName name

/-- The first error is the one `json.Unmarshal` keeps (`saveError`). -/
def saveError (saved new : Option Error) : Option Error :=
  match saved with
  | some e => some e
  | none => new

/-- Decoding of a JSON value into a Go `string`: a JSON string is stored,
`null` leaves the destination as it is, anything else is a type error that
leaves the destination as it is. -/
def unmarshalString (v : JValue) (dst : String) : String × Option Error :=
  match v with
  | .string s => (s, none)
  | .null => (dst, none)
  | _ => (dst, some "json: cannot unmarshal into Go value of type string")

/-- One member of the object decoded into the `Status` struct. -/
def unmarshalStatusMember (acc : CloudRunStatus × Option Error) (kv : String × JValue) :
    CloudRunStatus × Option Error :=
  if matchesField "url" kv.1 then
    let r := unmarshalString kv.2 acc.1.URL
    ({ URL := r.1 }, saveError acc.2 r.2)
  else acc

/-- Decoding of a JSON value into the `Status` struct: the members of an object
are decoded in document order into the fields they select, unknown members
are skipped; `null` leaves the struct as it is; anything else is a type
error that leaves the struct as it is. -/
def unmarshalStatus (v : JValue) (dst : CloudRunStatus) : CloudRunStatus × Option Error :=
  match v with
  | .object members => members.foldl unmarshalStatusMember (dst, none)
  | .null => (dst, none)
  | _ => (dst, some "json: cannot unmarshal into Go value of type struct")

/-- One member of the object decoded into `CloudRunAPIUrlOnly`. -/
def unmarshalMember (acc : CloudRunAPIUrlOnly × Option Error) (kv : String × JValue) :
    CloudRunAPIUrlOnly × Option Error :=
  if matchesField "status" kv.1 then
    let r := unmarshalStatus kv.2 acc.1.Status
    ({ Status := r.1 }, saveError acc.2 r.2)
  else acc

/-- Decoding of a JSON value into `CloudRunAPIUrlOnly`. -/
def unmarshalCloudRunAPIUrlOnly (v : JValue) (dst : CloudRunAPIUrlOnly) :
    CloudRunAPIUrlOnly × Option Error :=
  match v with
  | .object members => members.foldl unmarshalMember (dst, none)
  | .null => (dst, none)
  | _ => (dst, some "json: cannot unmarshal into Go value of type main.CloudRunAPIUrlOnly")

/-- Go `json.Unmarshal(body, dst)` for `dst : *CloudRunAPIUrlOnly`: the text is
checked first, and a text that is not valid JSON is an error that leaves
`dst` untouched.  The texts of the errors are abbreviated. -/
def jsonUnmarshal (body : Body) (dst : CloudRunAPIUrlOnly) :
    CloudRunAPIUrlOnly × Option Error :=
  match body with
  | .invalid _ => (dst, some "json: syntax error")
  | .json doc => unmarshalCloudRunAPIUrlOnly doc dst

/-! ## `getCloudRunUrl` (server.go, lines 107-135) -/

/-- The address built by the `fmt.Sprintf` of line 114. -/
def cloudRunApiUrl (region projectNumber service : String) : String :=
  "https://" ++ region ++ "-run.googleapis.com/apis/serving.knative.dev/v1/namespaces/"
    ++ projectNumber ++ "/services/" ++ service

/-- Go `getCloudRunUrl(region, projectNumber, service) (url string, err error)`.

The error of `google.DefaultClient` is overwritten unread by the next
assignment of `err`; when it was not nil the client is nil, and `Get` on a nil
`*http.Client` fails if the request cannot be built and dereferences the nil
pointer otherwise.  The error of `json.Unmarshal` is not read. -/
def getCloudRunUrl (w : World) (tr : List Event) (region projectNumber service : String) :
    Run (String × Option Error) :=
  let cloudRunApi := cloudRunApiUrl region projectNumber service
  let tr := tr ++ [.clientGet cloudRunApi]
  let errorOnGet (err : Error) : Run (String × Option Error) :=
    ⟨tr ++ [.stdout ("error when calling the Cloud Run API " ++ cloudRunApi
        ++ " with error " ++ err ++ "\n")],
      .returned ("", some err)⟩
  match w.DefaultClient with
  | some _ =>
    match w.urlParse cloudRunApi with
    | some err => errorOnGet err
    | none => ⟨tr, .panicked "runtime error: invalid memory address or nil pointer dereference"⟩
  | none =>
    match w.clientGet cloudRunApi with
    | .error err => errorOnGet err
    | .ok resp =>
      match resp.ReadAll with
      | .error err =>
        ⟨tr ++ [.stdout ("impossible to read the Cloud Run API call body with error "
            ++ err ++ "\n")],
          .returned ("", some err)⟩
      | .ok body =>
        let cloudRunResp : CloudRunAPIUrlOnly := { Status := { URL := "" } }
        let cloudRunResp := (jsonUnmarshal body cloudRunResp).1
        ⟨tr, .returned (cloudRunResp.Status.URL, none)⟩

/-! ## `selfCall` (server.go, lines 75-105) -/

/-- Go `http.NewRequest("GET", url, nil)`. -/
def httpNewRequest (w : World) (url : String) : Except Error Request :=
  match w.urlParse url with
  | some err => .error err
  | none => .ok { Method := "GET", URL := url, Body := none, Header := [] }

/-- Go `req.Header.Add(key, value)`. -/
def Request.HeaderAdd (req : Request) (key value : String) : Request :=
  { req with Header := req.Header ++ [(key, value)] }

/-- The condition of the `for` statement of line 98:
`err != nil || resp.StatusCode >= 300`. -/
def selfCallCond (r : Except Error Response) : Bool :=
  match r with
  | .error _ => true
  | .ok resp => resp.StatusCode ≥ 300

/-- The `for` statement of line 98 after its init statement has run: `r` holds
the `resp, err` assigned by the init statement.  The statement has no post
statement and its body only prints, so each round tests the same `r`.
`fuel` bounds the number of rounds; the status is `returned` when the loop is
left and the function goes on, `running` when the fuel ran out inside it. -/
def selfCallLoop (r : Except Error Response) : Nat → List Event → Run Unit
  | fuel, tr =>
    if selfCallCond r then
      match fuel with
      | 0 => ⟨tr, .running⟩
      | fuel + 1 => selfCallLoop r fuel (tr ++ [.stdout "self call not successful, retry\n"])
    else ⟨tr, .returned ()⟩

/-- Go `selfCall(url string)`.  The two `fmt.Errorf` calls build an error value
that is dropped: nothing is printed before the `return`. -/
def selfCall (fuel : Nat) (w : World) (tr : List Event) (url : String) : Run Unit :=
  let tokenURL := "/instance/service-accounts/default/identity?audience=" ++ url
  let tr := tr ++ [.metadataGet tokenURL]
  match w.metadataGet tokenURL with
  | .error _ => ⟨tr, .returned ()⟩
  | .ok idToken =>
    match httpNewRequest w url with
    | .error _ => ⟨tr, .returned ()⟩
    | .ok req =>
      let req := req.HeaderAdd "Authorization" ("Bearer " ++ idToken)
      -- init statement of the `for`: executed once
      let r := w.Do (countDo tr) req
      let tr := tr ++ [.httpDo req]
      match selfCallLoop r fuel tr with
      | ⟨tr, .returned ()⟩ =>
        ⟨tr ++ [.stdout "Self call success. Goodbye\n", .exit 0], .exited 0⟩
      | ⟨tr, .exited code⟩ => ⟨tr, .exited code⟩
      | ⟨tr, .panicked msg⟩ => ⟨tr, .panicked msg⟩
      | ⟨tr, .running⟩ => ⟨tr, .running⟩

/-! ## `gracefulTermination` (server.go, lines 45-73) -/

/-- The trace once the signal is printed (line 49). -/
def signalReceived (sig : Signal) : List Event :=
  [.stdout ("Signal received " ++ sig.String ++ "\n")]

/-- The name of the environment variable, `const K_SERVICE`. -/
def K_SERVICE : String := "K_SERVICE"

/-- Go `gracefulTermination(sigs)` from the moment `sig := <-sigs` has received
the signal `sig`. -/
def gracefulTermination (fuel : Nat) (w : World) (sig : Signal) : Run Unit :=
  let tr := signalReceived sig
  match getProjectAndRegion w tr with
  | ⟨tr, .exited code⟩ => ⟨tr, .exited code⟩
  | ⟨tr, .panicked msg⟩ => ⟨tr, .panicked msg⟩
  | ⟨tr, .running⟩ => ⟨tr, .running⟩
  | ⟨tr, .returned (_, _, some err)⟩ =>
    ⟨tr ++ [.stdout ("impossible to get the projectNumber and region from the metadata "
        ++ "server with error " ++ err ++ "\n")],
      .returned ()⟩
  | ⟨tr, .returned (projectNumber, region, none)⟩ =>
    let service := w.Getenv K_SERVICE
    if service = "" then
      ⟨tr ++ [.stdout ("impossible to get the Cloud Run service name from Environment "
          ++ "Variable with error <nil>\n")],
        .returned ()⟩
    else
      match getCloudRunUrl w tr region projectNumber service with
      | ⟨tr, .exited code⟩ => ⟨tr, .exited code⟩
      | ⟨tr, .panicked msg⟩ => ⟨tr, .panicked msg⟩
      | ⟨tr, .running⟩ => ⟨tr, .running⟩
      | ⟨tr, .returned (_, some _)⟩ => ⟨tr, .returned ()⟩
      | ⟨tr, .returned (cloudRunUrl, none)⟩ => selfCall fuel w tr cloudRunUrl

/-! ## Observations on a trace -/

/-- The requests sent with `http.DefaultClient.Do`, in order. -/
def httpRequests (tr : List Event) : List Request :=
  tr.filterMap fun e => match e with
    | .httpDo req => some req
    | _ => none

/-- The suffixes queried on the metadata server, in order. -/
def metadataQueries (tr : List Event) : List String :=
  tr.filterMap fun e => match e with
    | .metadataGet suffix => some suffix
    | _ => none

/-- The addresses queried on the control-plane API, in order. -/
def controlPlaneCalls (tr : List Event) : List String :=
  tr.filterMap fun e => match e with
    | .clientGet url => some url
    | _ => none

/-- The codes of the `os.Exit` calls. -/
def exits (tr : List Event) : List Int :=
  tr.filterMap fun e => match e with
    | .exit code => some code
    | _ => none

/-! ## What the specification talks about -/

/-- The request the specification describes for the self call: a `GET` to
`url` without a body, with the header `Authorization: Bearer <token>`. -/
def bearerRequest (url token : String) : Request :=
  { Method := "GET", URL := url, Body := none,
    Header := [("Authorization", "Bearer " ++ token)] }

/-- The member `key` of a JSON object, read off the document: the value of the
member whose name is exactly `key`. -/
def JValue.member (key : String) : JValue → Option JValue
  | .object members => members.lookup key
  | _ => none

/-- The nested field `status.url` of a JSON document, read off the document. -/
def statusUrl (doc : JValue) : Option JValue :=
  (doc.member "status").bind (JValue.member "url")

/-! ## Concrete environments -/

/-- The environment of the end-to-end scenario of the specification, with the
document `doc` as the answer of the control plane and `answers i` as the answer
of the service to the request number `i`. -/
def scenarioWorld (doc : Body) (answers : Nat → Except Error Response) : World :=
  { metadataGet := fun suffix =>
      if suffix = "/instance/region" then .ok "projects/123456/regions/europe-west1"
      else .ok "tok"
    Getenv := fun name => if name = "K_SERVICE" then "myapp" else ""
    DefaultClient := none
    urlParse := fun _ => none
    clientGet := fun _ => .ok { StatusCode := 200, ReadAll := .ok doc }
    Do := fun i _ => answers i }

/-- The body `{"status":{"url":"https://myapp-abcd.run.app"}}`. -/
def scenarioBody : Body :=
  .json (.object [("status", .object [("url", .string "https://myapp-abcd.run.app")])])

/-- A service that always answers with the status `code`. -/
def always (code : Nat) : Nat → Except Error Response :=
  fun _ => .ok { StatusCode := code }

/-- A service that answers 503, 503 and then 200. -/
def twice503 : Nat → Except Error Response :=
  fun i => if i < 2 then .ok { StatusCode := 503 } else .ok { StatusCode := 200 }

/-- The scenario with `resp` as the answer of the metadata server to
`/instance/region`. -/
def regionWorld (resp : Except Error String) : World :=
  { scenarioWorld scenarioBody (always 200) with
    metadataGet := fun suffix => if suffix = "/instance/region" then resp else .ok "tok" }

/-- The scenario with a metadata server that refuses the identity token. -/
def noTokenWorld : World :=
  { scenarioWorld scenarioBody (always 200) with
    metadataGet := fun suffix =>
      if suffix = "/instance/region" then .ok "projects/123456/regions/europe-west1"
      else .error "metadata: identity not available" }

/-- The scenario in which no address can be parsed. -/
def badUrlWorld : World :=
  { scenarioWorld scenarioBody (always 200) with
    urlParse := fun _ => some "parse: invalid URL" }

/-- The scenario without the environment variable `K_SERVICE`. -/
def noServiceWorld : World :=
  { scenarioWorld scenarioBody (always 200) with Getenv := fun _ => "" }

/-- The scenario with a control plane that cannot be reached. -/
def noControlPlaneWorld : World :=
  { scenarioWorld scenarioBody (always 200) with
    clientGet := fun _ => .error "Get: connection refused" }

/-- The document `{"status":{"url":"https://myapp-abcd.run.app","URL":"https://other.example"}}`. -/
def shadowedDoc : JValue :=
  .object [("status", .object [("url", .string "https://myapp-abcd.run.app"),
    ("URL", .string "https://other.example")])]

/-- The document `{"status":{"url":"https://svc.example","URL":"https://other.example"}}`. -/
def shadowedSvcDoc : JValue :=
  .object [("status", .object [("url", .string "https://svc.example"),
    ("URL", .string "https://other.example")])]

/-- The document `{"status":{"url":"https://svc.example"}}`. -/
def svcDoc : JValue :=
  .object [("status", .object [("url", .string "https://svc.example")])]

/-- The body `{"error":{"code":404,"message":"not found","status":"NOT_FOUND"}}`. -/
def apiErrorBody : Body :=
  .json (.object [("error", .object [("code", .number "404"),
    ("message", .string "not found"), ("status", .string "NOT_FOUND")])])

/-! ## Splitting -/

theorem splitChars_notMem (sep : Char) (a cur : List Char) (ha : sep ∉ a) :
    splitChars sep a cur = [cur.reverse ++ a] := by
  induction a generalizing cur with
  | nil => simp [splitChars]
  | cons c cs ih =>
    have hc : c ≠ sep := fun h => ha (by simp [h])
    have hcs : sep ∉ cs := fun h => ha (by simp [h])
    simp [splitChars, hc, ih (c :: cur) hcs]

theorem splitChars_append (sep : Char) (a rest cur : List Char) (ha : sep ∉ a) :
    splitChars sep (a ++ sep :: rest) cur = (cur.reverse ++ a) :: splitChars sep rest [] := by
  induction a generalizing cur with
  | nil => simp [splitChars]
  | cons c cs ih =>
    have hc : c ≠ sep := fun h => ha (by simp [h])
    have hcs : sep ∉ cs := fun h => ha (by simp [h])
    simp [splitChars, hc, ih (c :: cur) hcs]

/-- The segments of a response `projects/<A>/regions/<B><S>`. -/
theorem stringsSplit_placement (A B S : String)
    (hA : '/' ∉ A.toList) (hB : '/' ∉ B.toList)
    (hS : S = "" ∨ S.toList.head? = some '/') :
    ∃ rest, stringsSplit ("projects/" ++ A ++ "/regions/" ++ B ++ S) '/'
      = "projects" :: A :: "regions" :: B :: rest := by
  have hp : '/' ∉ "projects".toList := by decide
  have hr : '/' ∉ "regions".toList := by decide
  have e : ("projects/" ++ A ++ "/regions/" ++ B ++ S).toList
      = "projects".toList ++ '/' :: (A.toList ++ '/' :: ("regions".toList ++ '/' ::
          (B.toList ++ S.toList))) := by
    simp [String.toList]
  rcases hS with hS | hS
  · subst hS
    refine ⟨[], ?_⟩
    unfold stringsSplit
    rw [e, splitChars_append _ _ _ _ hp, splitChars_append _ _ _ _ hA,
      splitChars_append _ _ _ _ hr]
    have : B.toList ++ "".toList = B.toList := by simp [String.toList]
    rw [this, splitChars_notMem _ _ _ hB]
    simp [String.toList]
  · obtain ⟨S', hS'⟩ : ∃ S', S.toList = '/' :: S' := by
      cases h : S.toList with
      | nil => rw [h] at hS; simp at hS
      | cons c cs =>
        rw [h] at hS
        simp only [List.head?_cons, Option.some.injEq] at hS
        exact ⟨cs, by rw [hS]⟩
    refine ⟨(splitChars '/' S' []).map String.mk, ?_⟩
    unfold stringsSplit
    rw [e, hS', splitChars_append _ _ _ _ hp, splitChars_append _ _ _ _ hA,
      splitChars_append _ _ _ _ hr, splitChars_append _ _ _ _ hB]
    simp [String.toList]

/-! ## `getProjectAndRegion` -/

/-- C1: when the metadata call for "/instance/region" succeeds with the response
"projects/" ++ A ++ "/regions/" ++ B ++ S, where A and B contain no '/' and S
is empty or starts with '/', getProjectAndRegion returns projectNumber = A,
region = B and a nil error. -/
theorem getProjectAndRegion_wellFormed (w : World) (tr : List Event) (A B S : String)
    (hA : '/' ∉ A.toList) (hB : '/' ∉ B.toList)
    (hS : S = "" ∨ S.toList.head? = some '/')
    (hresp : w.metadataGet "/instance/region"
      = .ok ("projects/" ++ A ++ "/regions/" ++ B ++ S)) :
    (getProjectAndRegion w tr).status = .returned (A, B, none) := by
  obtain ⟨rest, hsplit⟩ := stringsSplit_placement A B S hA hB hS
  simp [getProjectAndRegion, hresp, hsplit, index]

/-- Witness of C1: the response "projects/123456/regions/europe-west1/zones/b",
with A = "123456", B = "europe-west1" and S = "/zones/b". -/
theorem getProjectAndRegion_wellFormed_witness :
    (getProjectAndRegion (regionWorld (.ok "projects/123456/regions/europe-west1/zones/b"))
      []).status = .returned ("123456", "europe-west1", none) :=
  getProjectAndRegion_wellFormed
    (regionWorld (.ok "projects/123456/regions/europe-west1/zones/b")) []
    "123456" "europe-west1" "/zones/b" (by decide) (by decide) (Or.inr (by decide)) rfl

/-- A response with fewer than 4 segments makes `getProjectAndRegion` panic,
whatever the rest of the environment. -/
theorem getProjectAndRegion_short_panics (w : World) (tr : List Event) (resp : String)
    (hresp : w.metadataGet "/instance/region" = .ok resp)
    (hlen : (stringsSplit resp '/').length < 4) :
    ∃ msg, (getProjectAndRegion w tr).status = .panicked msg := by
  simp only [getProjectAndRegion, hresp, index]
  cases h1 : (stringsSplit resp '/')[1]? with
  | none => exact ⟨_, rfl⟩
  | some x =>
    have h3 : (stringsSplit resp '/')[3]? = none := by
      rw [List.getElem?_eq_none_iff]; omega
    simp only [h3]
    exact ⟨_, rfl⟩

/-- C2: on the responses "", "projects/123456" and "projects/123456/regions"
(1, 2 and 3 segments) getProjectAndRegion does not return an error: it panics
with an index out of range. -/
theorem getProjectAndRegion_malformed :
    (getProjectAndRegion (regionWorld (.ok "")) []).status
        = .panicked "runtime error: index out of range [1] with length 1"
    ∧ (getProjectAndRegion (regionWorld (.ok "projects/123456")) []).status
        = .panicked "runtime error: index out of range [3] with length 2"
    ∧ (getProjectAndRegion (regionWorld (.ok "projects/123456/regions")) []).status
        = .panicked "runtime error: index out of range [3] with length 3" := by
  refine ⟨?_, ?_, ?_⟩ <;> rfl

/-! ## `selfCall` -/

theorem countDo_append (tr tr' : List Event) : countDo (tr ++ tr') = countDo tr + countDo tr' := by
  simp [countDo]

theorem httpRequests_append (tr tr' : List Event) :
    httpRequests (tr ++ tr') = httpRequests tr ++ httpRequests tr' := by
  simp [httpRequests]

theorem metadataQueries_append (tr tr' : List Event) :
    metadataQueries (tr ++ tr') = metadataQueries tr ++ metadataQueries tr' := by
  simp [metadataQueries]

theorem controlPlaneCalls_append (tr tr' : List Event) :
    controlPlaneCalls (tr ++ tr') = controlPlaneCalls tr ++ controlPlaneCalls tr' := by
  simp [controlPlaneCalls]

theorem exits_append (tr tr' : List Event) : exits (tr ++ tr') = exits tr ++ exits tr' := by
  simp [exits]

/-- The loop is left at once when its condition is false. -/
theorem selfCallLoop_done (r : Except Error Response) (fuel : Nat) (tr : List Event)
    (h : selfCallCond r = false) : selfCallLoop r fuel tr = ⟨tr, .returned ()⟩ := by
  cases fuel <;> simp [selfCallLoop, h]

/-- The loop is never left when its condition is true: every round prints and
tests the same answer again. -/
theorem selfCallLoop_stuck (r : Except Error Response) (fuel : Nat) (tr : List Event)
    (h : selfCallCond r = true) :
    selfCallLoop r fuel tr
      = ⟨tr ++ List.replicate fuel (.stdout "self call not successful, retry\n"), .running⟩ := by
  induction fuel generalizing tr with
  | zero => simp [selfCallLoop, h]
  | succ n ih =>
    rw [selfCallLoop]
    simp only [h, if_true]
    rw [ih]
    simp [List.replicate_succ]

/-- The run of `selfCall` when the identity token cannot be fetched. -/
theorem selfCall_tokenError (fuel : Nat) (w : World) (tr : List Event) (url : String) (e : Error)
    (ht : w.metadataGet ("/instance/service-accounts/default/identity?audience=" ++ url)
      = .error e) :
    selfCall fuel w tr url
      = ⟨tr ++ [.metadataGet ("/instance/service-accounts/default/identity?audience=" ++ url)],
          .returned ()⟩ := by
  simp [selfCall, ht]

/-- The run of `selfCall` when the request cannot be built. -/
theorem selfCall_requestError (fuel : Nat) (w : World) (tr : List Event) (url t : String)
    (e : Error)
    (ht : w.metadataGet ("/instance/service-accounts/default/identity?audience=" ++ url)
      = .ok t)
    (hu : w.urlParse url = some e) :
    selfCall fuel w tr url
      = ⟨tr ++ [.metadataGet ("/instance/service-accounts/default/identity?audience=" ++ url)],
          .returned ()⟩ := by
  simp [selfCall, ht, httpNewRequest, hu]

/-- The run of `selfCall` when the answer to its request leaves the loop. -/
theorem selfCall_success (fuel : Nat) (w : World) (tr : List Event) (url t : String)
    (ht : w.metadataGet ("/instance/service-accounts/default/identity?audience=" ++ url)
      = .ok t)
    (hu : w.urlParse url = none)
    (hr : selfCallCond (w.Do (countDo tr) (bearerRequest url t)) = false) :
    selfCall fuel w tr url
      = ⟨tr ++ [.metadataGet ("/instance/service-accounts/default/identity?audience=" ++ url),
            .httpDo (bearerRequest url t), .stdout "Self call success. Goodbye\n", .exit 0],
          .exited 0⟩ := by
  have hc : countDo (tr ++ [.metadataGet
      ("/instance/service-accounts/default/identity?audience=" ++ url)]) = countDo tr := by
    simp [countDo]
  have hreq : Request.HeaderAdd { Method := "GET", URL := url, Body := none, Header := [] }
      "Authorization" ("Bearer " ++ t) = bearerRequest url t := rfl
  simp only [selfCall, ht, httpNewRequest, hu, hreq, hc]
  rw [selfCallLoop_done _ _ _ hr]
  simp

/-- The run of `selfCall` when the answer to its request keeps the loop going. -/
theorem selfCall_failure (fuel : Nat) (w : World) (tr : List Event) (url t : String)
    (ht : w.metadataGet ("/instance/service-accounts/default/identity?audience=" ++ url)
      = .ok t)
    (hu : w.urlParse url = none)
    (hr : selfCallCond (w.Do (countDo tr) (bearerRequest url t)) = true) :
    selfCall fuel w tr url
      = ⟨tr ++ [.metadataGet ("/instance/service-accounts/default/identity?audience=" ++ url),
            .httpDo (bearerRequest url t)]
            ++ List.replicate fuel (.stdout "self call not successful, retry\n"),
          .running⟩ := by
  have hc : countDo (tr ++ [.metadataGet
      ("/instance/service-accounts/default/identity?audience=" ++ url)]) = countDo tr := by
    simp [countDo]
  have hreq : Request.HeaderAdd { Method := "GET", URL := url, Body := none, Header := [] }
      "Authorization" ("Bearer " ++ t) = bearerRequest url t := rfl
  simp only [selfCall, ht, httpNewRequest, hu, hreq, hc]
  rw [selfCallLoop_stuck _ _ _ hr]
  simp

theorem httpRequests_replicate_stdout (n : Nat) (s : String) :
    httpRequests (List.replicate n (.stdout s)) = [] := by
  induction n with
  | zero => rfl
  | succ n ih => simp [List.replicate_succ, httpRequests] at ih ⊢

theorem exits_replicate_stdout (n : Nat) (s : String) :
    exits (List.replicate n (.stdout s)) = [] := by
  induction n with
  | zero => rfl
  | succ n ih => simp [List.replicate_succ, exits] at ih ⊢

theorem metadataQueries_replicate_stdout (n : Nat) (s : String) :
    metadataQueries (List.replicate n (.stdout s)) = [] := by
  induction n with
  | zero => rfl
  | succ n ih => simp [List.replicate_succ, metadataQueries] at ih ⊢

/-- C3: against a service that answers 503, 503 and then 200, selfCall sends
one request only, never exits and never leaves its loop, however long it
runs. -/
theorem selfCall_twice503 (fuel : Nat) :
    httpRequests (selfCall fuel (scenarioWorld scenarioBody twice503) []
        "https://myapp-abcd.run.app").trace
      = [bearerRequest "https://myapp-abcd.run.app" "tok"]
    ∧ exits (selfCall fuel (scenarioWorld scenarioBody twice503) []
        "https://myapp-abcd.run.app").trace = []
    ∧ (selfCall fuel (scenarioWorld scenarioBody twice503) []
        "https://myapp-abcd.run.app").status = .running := by
  rw [selfCall_failure fuel (scenarioWorld scenarioBody twice503) []
    "https://myapp-abcd.run.app" "tok" rfl rfl rfl]
  refine ⟨?_, ?_, rfl⟩
  · rw [httpRequests_append, httpRequests_replicate_stdout]
    rfl
  · rw [exits_append, exits_replicate_stdout]
    rfl

/-- The condition of the loop is false exactly on an answer without error
whose status is below 300. -/
theorem selfCallCond_false_iff (r : Except Error Response) :
    selfCallCond r = false ↔ ∃ resp, r = .ok resp ∧ resp.StatusCode < 300 := by
  cases r with
  | error e => simp [selfCallCond]
  | ok resp => simp [selfCallCond]

/-- C4: selfCall terminates the process only with the code 0 and only after
http.DefaultClient.Do has answered without error and with a status below 300,
the request being in the trace before the exit; when the answer is a transport
error or has a status of 300 or more, selfCall never exits, and when the
answer has no error and a status below 300 it exits with the code 0. -/
theorem selfCall_exit_only_on_success (fuel : Nat) (w : World) (tr : List Event)
    (url : String) :
    (∀ code, (selfCall fuel w tr url).status = .exited code →
      code = 0 ∧ ∃ t resp,
        w.metadataGet ("/instance/service-accounts/default/identity?audience=" ++ url) = .ok t
        ∧ w.Do (countDo tr) (bearerRequest url t) = .ok resp
        ∧ resp.StatusCode < 300
        ∧ (selfCall fuel w tr url).trace
          = tr ++ [.metadataGet ("/instance/service-accounts/default/identity?audience=" ++ url),
              .httpDo (bearerRequest url t), .stdout "Self call success. Goodbye\n", .exit 0])
    ∧ (∀ t, w.metadataGet ("/instance/service-accounts/default/identity?audience=" ++ url)
          = .ok t → w.urlParse url = none →
        (∀ e, w.Do (countDo tr) (bearerRequest url t) = .error e →
          (selfCall fuel w tr url).status = .running
          ∧ exits (selfCall fuel w tr url).trace = exits tr)
        ∧ (∀ resp, w.Do (countDo tr) (bearerRequest url t) = .ok resp →
          300 ≤ resp.StatusCode →
          (selfCall fuel w tr url).status = .running
          ∧ exits (selfCall fuel w tr url).trace = exits tr)
        ∧ (∀ resp, w.Do (countDo tr) (bearerRequest url t) = .ok resp →
          resp.StatusCode < 300 →
          (selfCall fuel w tr url).status = .exited 0
          ∧ exits (selfCall fuel w tr url).trace = exits tr ++ [0])) := by
  constructor
  · intro code hcode
    cases ht : w.metadataGet ("/instance/service-accounts/default/identity?audience=" ++ url) with
    | error e => rw [selfCall_tokenError fuel w tr url e ht] at hcode; simp at hcode
    | ok t =>
      cases hu : w.urlParse url with
      | some e => rw [selfCall_requestError fuel w tr url t e ht hu] at hcode; simp at hcode
      | none =>
        cases hc : selfCallCond (w.Do (countDo tr) (bearerRequest url t)) with
        | true => rw [selfCall_failure fuel w tr url t ht hu hc] at hcode; simp at hcode
        | false =>
          rw [selfCall_success fuel w tr url t ht hu hc] at hcode ⊢
          obtain ⟨resp, hresp, hlt⟩ := (selfCallCond_false_iff _).1 hc
          simp only [Status.exited.injEq] at hcode
          exact ⟨hcode.symm, t, resp, rfl, hresp, hlt, rfl⟩
  · intro t ht hu
    refine ⟨?_, ?_, ?_⟩
    · intro e he
      have hc : selfCallCond (w.Do (countDo tr) (bearerRequest url t)) = true := by
        rw [he]; rfl
      rw [selfCall_failure fuel w tr url t ht hu hc]
      refine ⟨rfl, ?_⟩
      rw [exits_append, exits_append, exits_replicate_stdout]
      simp [exits]
    · intro resp hresp hge
      have hc : selfCallCond (w.Do (countDo tr) (bearerRequest url t)) = true := by
        rw [hresp]; simpa [selfCallCond] using hge
      rw [selfCall_failure fuel w tr url t ht hu hc]
      refine ⟨rfl, ?_⟩
      rw [exits_append, exits_append, exits_replicate_stdout]
      simp [exits]
    · intro resp hresp hlt
      have hc : selfCallCond (w.Do (countDo tr) (bearerRequest url t)) = false :=
        (selfCallCond_false_iff _).2 ⟨resp, hresp, hlt⟩
      rw [selfCall_success fuel w tr url t ht hu hc]
      refine ⟨rfl, ?_⟩
      rw [exits_append]
      simp [exits]

/-- Witness of C4 at the boundary: a status of 299 exits with the code 0, a
status of 300 keeps selfCall in its loop without an exit. -/
theorem selfCall_exit_only_on_success_witness :
    ((selfCall 7 (scenarioWorld scenarioBody (always 299)) [] "https://myapp-abcd.run.app").status
        = .exited 0
      ∧ exits (selfCall 7 (scenarioWorld scenarioBody (always 299)) []
          "https://myapp-abcd.run.app").trace = exits [] ++ [0])
    ∧ ((selfCall 7 (scenarioWorld scenarioBody (always 300)) [] "https://myapp-abcd.run.app").status
        = .running
      ∧ exits (selfCall 7 (scenarioWorld scenarioBody (always 300)) []
          "https://myapp-abcd.run.app").trace = exits []) :=
  ⟨((selfCall_exit_only_on_success 7 (scenarioWorld scenarioBody (always 299)) []
      "https://myapp-abcd.run.app").2 "tok" rfl rfl).2.2 ⟨299⟩ rfl (by decide),
   ((selfCall_exit_only_on_success 7 (scenarioWorld scenarioBody (always 300)) []
      "https://myapp-abcd.run.app").2 "tok" rfl rfl).2.1 ⟨300⟩ rfl (by decide)⟩

/-- C5, as stated, fails: selfCall returns normally to its caller when the
metadata server refuses the identity token, and when the request cannot be
built. -/
theorem selfCall_returns_normally :
    selfCall 7 noTokenWorld [] "https://myapp-abcd.run.app"
        = ⟨[.metadataGet ("/instance/service-accounts/default/identity"
              ++ "?audience=https://myapp-abcd.run.app")], .returned ()⟩
    ∧ selfCall 7 badUrlWorld [] "https://myapp-abcd.run.app"
        = ⟨[.metadataGet ("/instance/service-accounts/default/identity"
              ++ "?audience=https://myapp-abcd.run.app")], .returned ()⟩ := by
  constructor <;> rfl

/-- C5, amended: selfCall returns normally to its caller exactly when the
identity-token query fails or the GET request cannot be built, and then it has
sent no request and has not exited; in every other execution it terminates
the process with the exit code 0 or stays in its loop. -/
theorem selfCall_outcomes (fuel : Nat) (w : World) (tr : List Event) (url : String) :
    ((selfCall fuel w tr url).status = .returned () ↔
      ((∃ e, w.metadataGet ("/instance/service-accounts/default/identity?audience=" ++ url)
          = .error e)
        ∨ (∃ e, w.urlParse url = some e)))
    ∧ ((selfCall fuel w tr url).status = .returned () →
      httpRequests (selfCall fuel w tr url).trace = httpRequests tr
      ∧ exits (selfCall fuel w tr url).trace = exits tr)
    ∧ ((selfCall fuel w tr url).status = .returned ()
      ∨ ((selfCall fuel w tr url).status = .exited 0
        ∧ exits (selfCall fuel w tr url).trace = exits tr ++ [0])
      ∨ (selfCall fuel w tr url).status = .running) := by
  cases ht : w.metadataGet ("/instance/service-accounts/default/identity?audience=" ++ url) with
  | error e =>
    rw [selfCall_tokenError fuel w tr url e ht]
    simp [httpRequests, exits]
  | ok t =>
    cases hu : w.urlParse url with
    | some e =>
      rw [selfCall_requestError fuel w tr url t e ht hu]
      simp [httpRequests, exits]
    | none =>
      cases hc : selfCallCond (w.Do (countDo tr) (bearerRequest url t)) with
      | true =>
        rw [selfCall_failure fuel w tr url t ht hu hc]
        simp
      | false =>
        rw [selfCall_success fuel w tr url t ht hu hc]
        simp [exits]

/-- C9: selfCall queries the metadata server once, at the path
"/instance/service-accounts/default/identity?audience=" ++ url, and when the
answer is the token t every request it sends is a GET to url without a body
whose only header is Authorization: "Bearer " ++ t; it sends such a request
whenever the request can be built. -/
theorem selfCall_token_and_request (fuel : Nat) (w : World) (tr : List Event)
    (url : String) :
    metadataQueries (selfCall fuel w tr url).trace
      = metadataQueries tr ++ ["/instance/service-accounts/default/identity?audience=" ++ url]
    ∧ ∀ t, w.metadataGet ("/instance/service-accounts/default/identity?audience=" ++ url)
        = .ok t →
      ∃ issued, httpRequests (selfCall fuel w tr url).trace = httpRequests tr ++ issued
        ∧ (∀ req ∈ issued, req.Method = "GET" ∧ req.URL = url ∧ req.Body = none
            ∧ req.Header = [("Authorization", "Bearer " ++ t)])
        ∧ (w.urlParse url = none → issued ≠ []) := by
  cases ht : w.metadataGet ("/instance/service-accounts/default/identity?audience=" ++ url) with
  | error e =>
    rw [selfCall_tokenError fuel w tr url e ht]
    simp [metadataQueries]
  | ok t =>
    cases hu : w.urlParse url with
    | some e =>
      rw [selfCall_requestError fuel w tr url t e ht hu]
      refine ⟨by simp [metadataQueries], ?_⟩
      intro t' _
      exact ⟨[], by simp [httpRequests], by simp, by simp⟩
    | none =>
      cases hc : selfCallCond (w.Do (countDo tr) (bearerRequest url t)) with
      | true =>
        rw [selfCall_failure fuel w tr url t ht hu hc]
        refine ⟨?_, ?_⟩
        · rw [metadataQueries_append, metadataQueries_append, metadataQueries_replicate_stdout]
          simp [metadataQueries]
        · intro t' ht'
          cases ht'
          refine ⟨[bearerRequest url t], ?_, ?_, by simp⟩
          · rw [httpRequests_append, httpRequests_append, httpRequests_replicate_stdout]
            simp [httpRequests]
          · intro req hreq
            simp only [List.mem_singleton] at hreq
            subst hreq
            exact ⟨rfl, rfl, rfl, rfl⟩
      | false =>
        rw [selfCall_success fuel w tr url t ht hu hc]
        refine ⟨?_, ?_⟩
        · rw [metadataQueries_append]
          simp [metadataQueries]
        · intro t' ht'
          cases ht'
          refine ⟨[bearerRequest url t], ?_, ?_, by simp⟩
          · rw [httpRequests_append]
            simp [httpRequests]
          · intro req hreq
            simp only [List.mem_singleton] at hreq
            subst hreq
            exact ⟨rfl, rfl, rfl, rfl⟩

/-- Witness of C9: the self call of the scenario, against a service that
answers 503. -/
theorem selfCall_token_and_request_witness :
    ∃ issued, httpRequests (selfCall 7 (scenarioWorld scenarioBody (always 503)) []
        "https://myapp-abcd.run.app").trace = httpRequests [] ++ issued
      ∧ (∀ req ∈ issued, req.Method = "GET" ∧ req.URL = "https://myapp-abcd.run.app"
          ∧ req.Body = none ∧ req.Header = [("Authorization", "Bearer " ++ "tok")])
      ∧ ((scenarioWorld scenarioBody (always 503)).urlParse "https://myapp-abcd.run.app" = none
          → issued ≠ []) :=
  (selfCall_token_and_request 7 (scenarioWorld scenarioBody (always 503)) []
    "https://myapp-abcd.run.app").2 "tok" rfl

/-! ## `getCloudRunUrl` -/

/-- A fold whose step skips the elements that `p` rejects only sees the
elements that `p` accepts. -/
theorem foldl_filter_of_skip {α β : Type} (p : α → Bool) (f : β → α → β)
    (hskip : ∀ b a, p a = false → f b a = b) (l : List α) (b : β) :
    l.foldl f b = (l.filter p).foldl f b := by
  induction l generalizing b with
  | nil => rfl
  | cons a l ih =>
    cases hp : p a with
    | false => simp [List.filter, hp, hskip b a hp, ih]
    | true => simp [List.filter, hp, ih]

/-- Decoding of an object into the `Status` struct when `url` is its only
member that selects the field `URL`. -/
theorem unmarshalStatus_unique (statusMembers : List (String × JValue)) (u : String)
    (dst : CloudRunStatus)
    (hurl : statusMembers.filter (fun kv => matchesField "url" kv.1) = [("url", .string u)]) :
    unmarshalStatus (.object statusMembers) dst = ({ URL := u }, none) := by
  simp only [unmarshalStatus]
  rw [foldl_filter_of_skip (fun kv => matchesField "url" kv.1) unmarshalStatusMember
    (fun b a h => by simp only [unmarshalStatusMember]; simp [h]), hurl]
  rfl

/-- Decoding of a document when `status` is its only member that selects the
field `Status` and `url` the only member of it that selects the field `URL`. -/
theorem unmarshal_unique (members statusMembers : List (String × JValue)) (u : String)
    (dst : CloudRunAPIUrlOnly)
    (hstatus : members.filter (fun kv => matchesField "status" kv.1)
      = [("status", .object statusMembers)])
    (hurl : statusMembers.filter (fun kv => matchesField "url" kv.1) = [("url", .string u)]) :
    (jsonUnmarshal (.json (.object members)) dst).1.Status.URL = u := by
  simp only [jsonUnmarshal, unmarshalCloudRunAPIUrlOnly]
  rw [foldl_filter_of_skip (fun kv => matchesField "status" kv.1) unmarshalMember
    (fun b a h => by simp only [unmarshalMember]; simp [h]), hstatus]
  have hm : matchesField "status" "status" = true := by decide
  simp only [List.foldl, unmarshalMember, hm, if_true,
    unmarshalStatus_unique statusMembers u dst.Status hurl]

/-- When one member only is accepted by the matching of `encoding/json` for the
name `name`, and its key is `name` itself, it is the member `name` of the
document. -/
theorem lookup_of_filter_matchesField (name : String) (v : JValue)
    (members : List (String × JValue))
    (h : members.filter (fun kv => matchesField name kv.1) = [(name, v)]) :
    members.lookup name = some v := by
  induction members with
  | nil => simp at h
  | cons kv rest ih =>
    obtain ⟨k, x⟩ := kv
    cases hm : matchesField name k with
    | true =>
      simp only [List.filter, hm] at h
      have hk : k = name := by
        have := congrArg (fun l => l.head?.map Prod.fst) h
        simpa using this
      have hx : x = v := by
        have := List.head_eq_of_cons_eq h
        exact (Prod.mk.inj this).2
      subst hk hx
      simp [List.lookup]
    | false =>
      simp only [List.filter, hm] at h
      have hne : (name == k) = false := by
        cases hb : name == k with
        | false => rfl
        | true =>
          have hk : name = k := by simpa using hb
          subst hk
          simp [matchesField] at hm
      simp only [List.lookup, hne]
      exact ih h

/-- The hypotheses of the amended C7 and C10 describe documents whose nested
field `status.url` is the string `u`. -/
theorem statusUrl_of_unique (members statusMembers : List (String × JValue)) (u : String)
    (hstatus : members.filter (fun kv => matchesField "status" kv.1)
      = [("status", .object statusMembers)])
    (hurl : statusMembers.filter (fun kv => matchesField "url" kv.1) = [("url", .string u)]) :
    statusUrl (.object members) = some (.string u) := by
  simp only [statusUrl, JValue.member, lookup_of_filter_matchesField _ _ _ hstatus,
    Option.bind, lookup_of_filter_matchesField _ _ _ hurl]

/-- The run of `getCloudRunUrl` when the control plane answers and the body is read. -/
theorem getCloudRunUrl_ok (w : World) (tr : List Event) (region projectNumber service : String)
    (resp : APIResponse) (body : Body)
    (hc : w.DefaultClient = none)
    (hget : w.clientGet (cloudRunApiUrl region projectNumber service) = .ok resp)
    (hbody : resp.ReadAll = .ok body) :
    getCloudRunUrl w tr region projectNumber service
      = ⟨tr ++ [.clientGet (cloudRunApiUrl region projectNumber service)],
          .returned ((jsonUnmarshal body { Status := { URL := "" } }).1.Status.URL, none)⟩ := by
  simp [getCloudRunUrl, hc, hget, hbody]

/-- The function `getCloudRunUrl` does not query the metadata server, sends no request
with `http.DefaultClient` and does not exit. -/
theorem getCloudRunUrl_quiet (w : World) (tr : List Event)
    (region projectNumber service : String) :
    metadataQueries (getCloudRunUrl w tr region projectNumber service).trace
        = metadataQueries tr
    ∧ httpRequests (getCloudRunUrl w tr region projectNumber service).trace = httpRequests tr
    ∧ exits (getCloudRunUrl w tr region projectNumber service).trace = exits tr := by
  cases hc : w.DefaultClient with
  | some e =>
    cases hu : w.urlParse (cloudRunApiUrl region projectNumber service) <;>
      simp [getCloudRunUrl, hc, hu, metadataQueries, httpRequests, exits]
  | none =>
    cases hg : w.clientGet (cloudRunApiUrl region projectNumber service) with
    | error e => simp [getCloudRunUrl, hc, hg, metadataQueries, httpRequests, exits]
    | ok resp =>
      cases hb : resp.ReadAll <;>
        simp [getCloudRunUrl, hc, hg, hb, metadataQueries, httpRequests, exits]

/-- C7, as stated, fails: in the document
{"status":{"url":"https://svc.example","URL":"https://other.example"}} the
field status.url is "https://svc.example", and getCloudRunUrl returns
"https://other.example", the value of the other member of status. -/
theorem getCloudRunUrl_shadowed :
    statusUrl shadowedSvcDoc = some (.string "https://svc.example")
    ∧ (getCloudRunUrl (scenarioWorld (.json shadowedSvcDoc) (always 200)) []
        "europe-west1" "123456" "myapp").status
      = .returned ("https://other.example", none) := by
  constructor <;> rfl

/-- C7, amended: when the control-plane call succeeds and the body is a JSON
object in which `status` is the only member whose name matches "status" without
regard to case, its value being an object in which `url` is the only member
whose name matches "url" without regard to case, its value being the string u,
getCloudRunUrl returns url = u with a nil error, whatever the other members. -/
theorem getCloudRunUrl_statusUrl (w : World) (tr : List Event)
    (region projectNumber service : String) (resp : APIResponse)
    (members statusMembers : List (String × JValue)) (u : String)
    (hc : w.DefaultClient = none)
    (hget : w.clientGet (cloudRunApiUrl region projectNumber service) = .ok resp)
    (hbody : resp.ReadAll = .ok (.json (.object members)))
    (hstatus : members.filter (fun kv => matchesField "status" kv.1)
      = [("status", .object statusMembers)])
    (hurl : statusMembers.filter (fun kv => matchesField "url" kv.1) = [("url", .string u)]) :
    (getCloudRunUrl w tr region projectNumber service).status = .returned (u, none) := by
  rw [getCloudRunUrl_ok w tr region projectNumber service resp _ hc hget hbody,
    unmarshal_unique members statusMembers u _ hstatus hurl]

/-- Witness of C7, amended: for the body {"status":{"url":"https://svc.example"}},
with a member `kind` added at top level and a member `address` added inside
status, getCloudRunUrl returns exactly "https://svc.example". -/
theorem getCloudRunUrl_statusUrl_witness :
    (getCloudRunUrl (scenarioWorld (.json svcDoc) (always 200)) []
        "europe-west1" "123456" "myapp").status = .returned ("https://svc.example", none)
    ∧ (getCloudRunUrl (scenarioWorld (.json (.object [("kind", .string "Service"),
          ("status", .object [("address", .null), ("url", .string "https://svc.example")])]))
          (always 200)) [] "europe-west1" "123456" "myapp").status
        = .returned ("https://svc.example", none) :=
  ⟨getCloudRunUrl_statusUrl (scenarioWorld (.json svcDoc) (always 200)) []
      "europe-west1" "123456" "myapp" { StatusCode := 200, ReadAll := .ok (.json svcDoc) }
      [("status", .object [("url", .string "https://svc.example")])]
      [("url", .string "https://svc.example")] "https://svc.example" rfl rfl rfl rfl rfl,
   getCloudRunUrl_statusUrl (scenarioWorld (.json (.object [("kind", .string "Service"),
        ("status", .object [("address", .null), ("url", .string "https://svc.example")])]))
        (always 200)) [] "europe-west1" "123456" "myapp"
      { StatusCode := 200, ReadAll := .ok (.json (.object [("kind", .string "Service"),
        ("status", .object [("address", .null), ("url", .string "https://svc.example")])])) }
      [("kind", .string "Service"),
        ("status", .object [("address", .null), ("url", .string "https://svc.example")])]
      [("address", .null), ("url", .string "https://svc.example")]
      "https://svc.example" rfl rfl rfl rfl rfl⟩

/-- C8: on the bodies {}, {"status":{}}, an error document of the API and a
body that is not JSON, the control-plane call having succeeded,
getCloudRunUrl returns the empty string with a nil error. -/
theorem getCloudRunUrl_missing_field :
    (getCloudRunUrl (scenarioWorld (.json (.object [])) (always 200)) []
        "europe-west1" "123456" "myapp").status = .returned ("", none)
    ∧ (getCloudRunUrl (scenarioWorld (.json (.object [("status", .object [])])) (always 200)) []
        "europe-west1" "123456" "myapp").status = .returned ("", none)
    ∧ (getCloudRunUrl (scenarioWorld apiErrorBody (always 200)) []
        "europe-west1" "123456" "myapp").status = .returned ("", none)
    ∧ (getCloudRunUrl (scenarioWorld (.invalid "<html>Service Unavailable</html>")
        (always 200)) [] "europe-west1" "123456" "myapp").status = .returned ("", none) := by
  refine ⟨?_, ?_, ?_, ?_⟩ <;> rfl

/-! ## `gracefulTermination` -/

/-- The only effect of `getProjectAndRegion` is its query of the metadata
server. -/
theorem getProjectAndRegion_trace (w : World) (tr : List Event) :
    (getProjectAndRegion w tr).trace = tr ++ [.metadataGet "/instance/region"] := by
  unfold getProjectAndRegion
  cases w.metadataGet "/instance/region" with
  | error e => rfl
  | ok resp =>
    simp only []
    cases index (stringsSplit resp '/') 1 with
    | error m => rfl
    | ok x =>
      simp only []
      cases index (stringsSplit resp '/') 3 <;> rfl

/-- A run is its trace and its status. -/
theorem getProjectAndRegion_eq (w : World) (tr : List Event)
    (s : Status (String × String × Option Error))
    (h : (getProjectAndRegion w tr).status = s) :
    getProjectAndRegion w tr = ⟨tr ++ [.metadataGet "/instance/region"], s⟩ := by
  rw [← h, ← getProjectAndRegion_trace w tr]

/-- C6: once the signal is received, when getProjectAndRegion returns an
error, or K_SERVICE is absent or empty, or getCloudRunUrl returns an error,
gracefulTermination returns without an exit, without a query for an identity
token (the only metadata query is "/instance/region") and without a self-call
request; in the first two cases the control-plane API is not called either. -/
theorem gracefulTermination_early_return (fuel : Nat) (w : World) (sig : Signal) :
    (∀ p r e, (getProjectAndRegion w (signalReceived sig)).status = .returned (p, r, some e) →
      (gracefulTermination fuel w sig).status = .returned ()
      ∧ exits (gracefulTermination fuel w sig).trace = []
      ∧ httpRequests (gracefulTermination fuel w sig).trace = []
      ∧ metadataQueries (gracefulTermination fuel w sig).trace = ["/instance/region"]
      ∧ controlPlaneCalls (gracefulTermination fuel w sig).trace = [])
    ∧ (∀ p r, (getProjectAndRegion w (signalReceived sig)).status = .returned (p, r, none) →
      w.Getenv K_SERVICE = "" →
      (gracefulTermination fuel w sig).status = .returned ()
      ∧ exits (gracefulTermination fuel w sig).trace = []
      ∧ httpRequests (gracefulTermination fuel w sig).trace = []
      ∧ metadataQueries (gracefulTermination fuel w sig).trace = ["/instance/region"]
      ∧ controlPlaneCalls (gracefulTermination fuel w sig).trace = [])
    ∧ (∀ p r u e, (getProjectAndRegion w (signalReceived sig)).status = .returned (p, r, none) →
      w.Getenv K_SERVICE ≠ "" →
      (getCloudRunUrl w (getProjectAndRegion w (signalReceived sig)).trace r p
        (w.Getenv K_SERVICE)).status = .returned (u, some e) →
      (gracefulTermination fuel w sig).status = .returned ()
      ∧ exits (gracefulTermination fuel w sig).trace = []
      ∧ httpRequests (gracefulTermination fuel w sig).trace = []
      ∧ metadataQueries (gracefulTermination fuel w sig).trace = ["/instance/region"]) := by
  refine ⟨?_, ?_, ?_⟩
  · intro p r e h
    simp only [gracefulTermination, getProjectAndRegion_eq w _ _ h]
    simp [signalReceived, exits, httpRequests, metadataQueries, controlPlaneCalls]
  · intro p r h hs
    simp only [gracefulTermination, getProjectAndRegion_eq w _ _ h, hs]
    simp [signalReceived, exits, httpRequests, metadataQueries, controlPlaneCalls]
  · intro p r u e h hs hurl
    rw [getProjectAndRegion_trace] at hurl
    obtain ⟨hq1, hq2, hq3⟩ := getCloudRunUrl_quiet w
      (signalReceived sig ++ [.metadataGet "/instance/region"]) r p (w.Getenv K_SERVICE)
    have hrun : gracefulTermination fuel w sig
        = ⟨(getCloudRunUrl w (signalReceived sig ++ [.metadataGet "/instance/region"]) r p
            (w.Getenv K_SERVICE)).trace, .returned ()⟩ := by
      simp only [gracefulTermination, getProjectAndRegion_eq w _ _ h, hs, if_false]
      generalize getCloudRunUrl w (signalReceived sig ++ [.metadataGet "/instance/region"]) r p
        (w.Getenv K_SERVICE) = run at hurl
      obtain ⟨t, s⟩ := run
      simp only at hurl
      subst hurl
      rfl
    rw [hrun]
    simp only [hq1, hq2, hq3]
    simp [signalReceived, exits, httpRequests, metadataQueries]

/-- Witness of C6: a metadata server that fails, a process without K_SERVICE,
and a control plane that cannot be reached. -/
theorem gracefulTermination_early_return_witness :
    ((gracefulTermination 7 (regionWorld (.error "metadata: not available")) .SIGTERM).status
        = .returned ()
      ∧ exits (gracefulTermination 7 (regionWorld (.error "metadata: not available"))
          .SIGTERM).trace = []
      ∧ httpRequests (gracefulTermination 7 (regionWorld (.error "metadata: not available"))
          .SIGTERM).trace = []
      ∧ metadataQueries (gracefulTermination 7 (regionWorld (.error "metadata: not available"))
          .SIGTERM).trace = ["/instance/region"]
      ∧ controlPlaneCalls (gracefulTermination 7 (regionWorld (.error "metadata: not available"))
          .SIGTERM).trace = [])
    ∧ ((gracefulTermination 7 noServiceWorld .SIGTERM).status = .returned ()
      ∧ exits (gracefulTermination 7 noServiceWorld .SIGTERM).trace = []
      ∧ httpRequests (gracefulTermination 7 noServiceWorld .SIGTERM).trace = []
      ∧ metadataQueries (gracefulTermination 7 noServiceWorld .SIGTERM).trace
          = ["/instance/region"]
      ∧ controlPlaneCalls (gracefulTermination 7 noServiceWorld .SIGTERM).trace = [])
    ∧ ((gracefulTermination 7 noControlPlaneWorld .SIGTERM).status = .returned ()
      ∧ exits (gracefulTermination 7 noControlPlaneWorld .SIGTERM).trace = []
      ∧ httpRequests (gracefulTermination 7 noControlPlaneWorld .SIGTERM).trace = []
      ∧ metadataQueries (gracefulTermination 7 noControlPlaneWorld .SIGTERM).trace
          = ["/instance/region"]) :=
  ⟨(gracefulTermination_early_return 7 (regionWorld (.error "metadata: not available"))
      .SIGTERM).1 "" "" "metadata: not available" rfl,
   (gracefulTermination_early_return 7 noServiceWorld .SIGTERM).2.1
      "123456" "europe-west1" rfl rfl,
   (gracefulTermination_early_return 7 noControlPlaneWorld .SIGTERM).2.2
      "123456" "europe-west1" "" "Get: connection refused" rfl (by decide) rfl⟩

/-- C10, as stated, fails: with the control-plane document
{"status":{"url":"https://myapp-abcd.run.app","URL":"https://other.example"}},
whose field status.url is "https://myapp-abcd.run.app", every other condition
of the scenario being met, the one self-call request goes to
"https://other.example". -/
theorem gracefulTermination_shadowed :
    (scenarioWorld (.json shadowedDoc) (always 200)).metadataGet "/instance/region"
        = .ok "projects/123456/regions/europe-west1"
    ∧ (scenarioWorld (.json shadowedDoc) (always 200)).Getenv K_SERVICE = "myapp"
    ∧ statusUrl shadowedDoc = some (.string "https://myapp-abcd.run.app")
    ∧ controlPlaneCalls (gracefulTermination 7 (scenarioWorld (.json shadowedDoc) (always 200))
        .SIGTERM).trace
      = ["https://europe-west1-run.googleapis.com/apis/serving.knative.dev/v1/namespaces/"
          ++ "123456/services/myapp"]
    ∧ httpRequests (gracefulTermination 7 (scenarioWorld (.json shadowedDoc) (always 200))
        .SIGTERM).trace
      = [bearerRequest "https://other.example" "tok"]
    ∧ httpRequests (gracefulTermination 7 (scenarioWorld (.json shadowedDoc) (always 200))
        .SIGTERM).trace
      ≠ [bearerRequest "https://myapp-abcd.run.app" "tok"] := by
  refine ⟨rfl, rfl, rfl, rfl, rfl, ?_⟩
  decide

/-- C10, amended: when a signal is delivered, the metadata server answers
"/instance/region" with "projects/123456/regions/europe-west1", K_SERVICE is
"myapp", the control-plane API answers with a JSON object in which `status` is
the only member whose name matches "status" without regard to case and `url`
the only member of it whose name matches "url" without regard to case, its
value being "https://myapp-abcd.run.app", the identity-token query succeeds
and the service answers the first request with the status 200, then
gracefulTermination queries the control plane once, at
"https://europe-west1-run.googleapis.com/apis/serving.knative.dev/v1/namespaces/123456/services/myapp",
sends exactly one self-call request, to "https://myapp-abcd.run.app", and
exits with the code 0. -/
theorem gracefulTermination_scenario (fuel : Nat) (w : World) (sig : Signal)
    (resp : APIResponse) (members statusMembers : List (String × JValue)) (t : String)
    (hregion : w.metadataGet "/instance/region" = .ok "projects/123456/regions/europe-west1")
    (hservice : w.Getenv K_SERVICE = "myapp")
    (hclient : w.DefaultClient = none)
    (hget : w.clientGet ("https://europe-west1-run.googleapis.com/apis/serving.knative.dev/v1/"
      ++ "namespaces/123456/services/myapp") = .ok resp)
    (hbody : resp.ReadAll = .ok (.json (.object members)))
    (hstatus : members.filter (fun kv => matchesField "status" kv.1)
      = [("status", .object statusMembers)])
    (hurl : statusMembers.filter (fun kv => matchesField "url" kv.1)
      = [("url", .string "https://myapp-abcd.run.app")])
    (htoken : w.metadataGet ("/instance/service-accounts/default/identity?audience="
      ++ "https://myapp-abcd.run.app") = .ok t)
    (hparse : w.urlParse "https://myapp-abcd.run.app" = none)
    (hdo : w.Do 0 (bearerRequest "https://myapp-abcd.run.app" t) = .ok { StatusCode := 200 }) :
    controlPlaneCalls (gracefulTermination fuel w sig).trace
      = ["https://europe-west1-run.googleapis.com/apis/serving.knative.dev/v1/namespaces/"
          ++ "123456/services/myapp"]
    ∧ httpRequests (gracefulTermination fuel w sig).trace
      = [bearerRequest "https://myapp-abcd.run.app" t]
    ∧ exits (gracefulTermination fuel w sig).trace = [0]
    ∧ (gracefulTermination fuel w sig).status = .exited 0 := by
  have hp : getProjectAndRegion w (signalReceived sig)
      = ⟨signalReceived sig ++ [.metadataGet "/instance/region"],
          .returned ("123456", "europe-west1", none)⟩ :=
    getProjectAndRegion_eq w _ _ (by simp only [getProjectAndRegion, hregion]; rfl)
  have hapi : cloudRunApiUrl "europe-west1" "123456" "myapp"
      = "https://europe-west1-run.googleapis.com/apis/serving.knative.dev/v1/"
        ++ "namespaces/123456/services/myapp" := by decide
  have hcr := getCloudRunUrl_ok w (signalReceived sig ++ [.metadataGet "/instance/region"])
    "europe-west1" "123456" "myapp" resp _ hclient (by rw [hapi]; exact hget) hbody
  rw [unmarshal_unique members statusMembers _ _ hstatus hurl] at hcr
  have hcount : countDo (signalReceived sig ++ [.metadataGet "/instance/region"]
      ++ [.clientGet (cloudRunApiUrl "europe-west1" "123456" "myapp")]) = 0 := by
    simp [countDo, signalReceived]
  have hcond : selfCallCond (w.Do (countDo (signalReceived sig
      ++ [.metadataGet "/instance/region"]
      ++ [.clientGet (cloudRunApiUrl "europe-west1" "123456" "myapp")]))
      (bearerRequest "https://myapp-abcd.run.app" t)) = false := by
    rw [hcount, hdo]; rfl
  have hrun : gracefulTermination fuel w sig
      = selfCall fuel w (signalReceived sig ++ [.metadataGet "/instance/region"]
          ++ [.clientGet (cloudRunApiUrl "europe-west1" "123456" "myapp")])
          "https://myapp-abcd.run.app" := by
    simp only [gracefulTermination, hp, hservice, hcr]
    rfl
  rw [hrun, selfCall_success fuel w _ _ t htoken hparse hcond, hapi]
  simp [signalReceived, controlPlaneCalls, httpRequests, exits]

/-- Witness of C10, amended: the scenario with the control-plane document
{"status":{"url":"https://myapp-abcd.run.app"}}. -/
theorem gracefulTermination_scenario_witness :
    controlPlaneCalls (gracefulTermination 7 (scenarioWorld scenarioBody (always 200))
        .SIGTERM).trace
      = ["https://europe-west1-run.googleapis.com/apis/serving.knative.dev/v1/namespaces/"
          ++ "123456/services/myapp"]
    ∧ httpRequests (gracefulTermination 7 (scenarioWorld scenarioBody (always 200))
        .SIGTERM).trace
      = [bearerRequest "https://myapp-abcd.run.app" "tok"]
    ∧ exits (gracefulTermination 7 (scenarioWorld scenarioBody (always 200)) .SIGTERM).trace
      = [0]
    ∧ (gracefulTermination 7 (scenarioWorld scenarioBody (always 200)) .SIGTERM).status
      = .exited 0 :=
  gracefulTermination_scenario 7 (scenarioWorld scenarioBody (always 200)) .SIGTERM
    { StatusCode := 200, ReadAll := .ok scenarioBody }
    [("status", .object [("url", .string "https://myapp-abcd.run.app")])]
    [("url", .string "https://myapp-abcd.run.app")] "tok"
    rfl rfl rfl rfl rfl rfl rfl rfl rfl rfl

end SelfCall
